import Mathlib

/-!
Verification of the Burp Suite log parser (`burp_log_parser.py`).

The per-record pipeline of `decode_burp_log` is embedded shallowly:
rows are association lists of optional strings (Python dicts whose
values may be `None`), the base64 decoder is modelled from CPython's
`binascii.a2b_base64` in non-strict mode (the behaviour reached through
`base64.b64decode` with `validate=False`), and text decoding models
`bytes.decode("utf-8", "ignore")`.  Regular-expression search
(`re.search`) is kept as an explicit function parameter `research`,
where `research p s = none` models `re.error` being raised for the
pattern `p` and `research p s = some b` models an unanchored search
returning a match (`true`) or `None` (`false`).
-/

/-- The standard base64 alphabet, index `n` holds the character whose
six-bit value is `n` (models CPython's `table_b2a_base64`). -/
def b64Alphabet : List Char :=
  "ABCDEFGHIJKLMNOPQRSTUVWXYZabcdefghijklmnopqrstuvwxyz0123456789+/".data

/-- Character of a six-bit value (encoder table lookup). -/
def b64alph (n : Nat) : Char := b64Alphabet.getD n 'A'

/-- Decoder table `table_a2b_base64`: the six-bit value of an alphabet
character, `none` for characters outside the alphabet. -/
def table_a2b (c : Char) : Option Nat :=
  let i := b64Alphabet.indexOf c
  if i < 64 then some i else none

/-- CPython's `binascii.a2b_base64` main loop in non-strict mode
(the mode used by `base64.b64decode(s)`): characters outside the
alphabet are discarded; `=` terminates decoding once a quad position
of at least 2 has accumulated enough padding; at the end of input a
quad position other than 0 is an error (`binascii.Error`), modelled as
`none`.  State: remaining characters, quad position, the pending
`leftchar` bits, the consecutive-padding count, and the output bytes. -/
def a2bAux : List Char → Nat → Nat → Nat → List Nat → Option (List Nat)
  | [], quad, _, _, out => if quad = 0 then some out else none
  | c :: rest, quad, left, pads, out =>
    if c = '=' then
      if 2 ≤ quad ∧ 4 ≤ quad + pads + 1 then some out
      else a2bAux rest quad left (if 2 ≤ quad then pads + 1 else pads) out
    else
      match table_a2b c with
      | none => a2bAux rest quad left pads out
      | some v =>
        if quad = 0 then a2bAux rest 1 v 0 out
        else if quad = 1 then a2bAux rest 2 (v % 16) 0 (out ++ [left * 4 + v / 16])
        else if quad = 2 then a2bAux rest 3 (v % 4) 0 (out ++ [left * 16 + v / 4])
        else a2bAux rest 0 0 0 (out ++ [left * 64 + v])

/-- Result of `base64.b64decode` on a Python `str`: decoded bytes, a
`binascii.Error` (caught by the parser's `except` clause), or a
`ValueError` raised by `_bytes_from_decode_data` when the string is not
pure ASCII (NOT caught by `except (binascii.Error, TypeError)`). -/
inductive B64Result
  | ok (bytes : List Nat)
  | binasciiError
  | valueError
deriving DecidableEq, Repr

/-- `base64.b64decode(s)` for a `str` argument: encode to ASCII
(raising `ValueError` on any code point above 127), then run the
non-strict base64 decoder. -/
def b64decodePy (s : String) : B64Result :=
  if s.data.all (fun c => c.toNat < 128) then
    match a2bAux s.data 0 0 0 [] with
    | some bs => .ok bs
    | none => .binasciiError
  else .valueError

/-- `base64.b64encode` on a byte list: standard 3-bytes-to-4-chars
grouping with `=` padding. -/
def b64encodeBytes : List Nat → List Char
  | b0 :: b1 :: b2 :: rest =>
    b64alph (b0 / 4) :: b64alph (b0 % 4 * 16 + b1 / 16) ::
      b64alph (b1 % 16 * 4 + b2 / 64) :: b64alph (b2 % 64) :: b64encodeBytes rest
  | [b0, b1] =>
    [b64alph (b0 / 4), b64alph (b0 % 4 * 16 + b1 / 16), b64alph (b1 % 16 * 4), '=']
  | [b0] => [b64alph (b0 / 4), b64alph (b0 % 4 * 16), '=', '=']
  | [] => []

/-- UTF-8 encoding of one scalar value (`str.encode("utf-8")`,
written with division and remainder in place of shifts and masks). -/
def utf8EncodeChar (c : Char) : List Nat :=
  let v := c.toNat
  if v < 0x80 then [v]
  else if v < 0x800 then [0xC0 + v / 64, 0x80 + v % 64]
  else if v < 0x10000 then
    [0xE0 + v / 4096, 0x80 + v / 64 % 64, 0x80 + v % 64]
  else
    [0xF0 + v / 262144, 0x80 + v / 4096 % 64, 0x80 + v / 64 % 64, 0x80 + v % 64]

/-- UTF-8 encoding of a string. -/
def utf8Encode (s : String) : List Nat := s.data.flatMap utf8EncodeChar

/-- A UTF-8 continuation byte. -/
def isCont (b : Nat) : Prop := 0x80 ≤ b ∧ b ≤ 0xBF

instance (b : Nat) : Decidable (isCont b) := by unfold isCont; infer_instance

/-- `bytes.decode("utf-8", "ignore")`: CPython's UTF-8 decoder with the
`ignore` error handler, which skips the maximal subpart of every
ill-formed sequence (one byte for an invalid start byte, the valid
prefix for a sequence broken at a continuation position) and drops a
truncated sequence at the end of input.  The first argument is fuel
(at least one byte is consumed per step, so `l.length` suffices). -/
def utf8Go : Nat → List Nat → List Char
  | 0, _ => []
  | _ + 1, [] => []
  | fuel + 1, b0 :: t0 =>
    if b0 < 0x80 then Char.ofNat b0 :: utf8Go fuel t0
    else if 0xC2 ≤ b0 ∧ b0 ≤ 0xDF then
      match t0 with
      | [] => []
      | b1 :: t1 =>
        if isCont b1 then
          Char.ofNat ((b0 - 0xC0) * 64 + (b1 - 0x80)) :: utf8Go fuel t1
        else utf8Go fuel t0
    else if 0xE0 ≤ b0 ∧ b0 ≤ 0xEF then
      match t0 with
      | [] => []
      | b1 :: t1 =>
        if (if b0 = 0xE0 then 0xA0 ≤ b1 ∧ b1 ≤ 0xBF
            else if b0 = 0xED then 0x80 ≤ b1 ∧ b1 ≤ 0x9F
            else isCont b1) then
          match t1 with
          | [] => []
          | b2 :: t2 =>
            if isCont b2 then
              Char.ofNat ((b0 - 0xE0) * 4096 + (b1 - 0x80) * 64 + (b2 - 0x80)) ::
                utf8Go fuel t2
            else utf8Go fuel t1
        else utf8Go fuel t0
    else if 0xF0 ≤ b0 ∧ b0 ≤ 0xF4 then
      match t0 with
      | [] => []
      | b1 :: t1 =>
        if (if b0 = 0xF0 then 0x90 ≤ b1 ∧ b1 ≤ 0xBF
            else if b0 = 0xF4 then 0x80 ≤ b1 ∧ b1 ≤ 0x8F
            else isCont b1) then
          match t1 with
          | [] => []
          | b2 :: t2 =>
            if isCont b2 then
              match t2 with
              | [] => []
              | b3 :: t3 =>
                if isCont b3 then
                  Char.ofNat ((b0 - 0xF0) * 262144 + (b1 - 0x80) * 4096 +
                      (b2 - 0x80) * 64 + (b3 - 0x80)) :: utf8Go fuel t3
                else utf8Go fuel t2
            else utf8Go fuel t1
        else utf8Go fuel t0
    else utf8Go fuel t0

/-- `bytes.decode("utf-8", "ignore")` on a byte list. -/
def utf8DecodeIgnore (l : List Nat) : List Char := utf8Go l.length l

/-- The decode step applied to a raw `Request` or `Response` string
(lines 83-86 and 110-113 of `burp_log_parser.py`):
`base64.b64decode(raw).decode("utf-8", "ignore")`, falling back to the
raw text on `binascii.Error`; a `ValueError` (non-ASCII raw text)
escapes the `except` clause, modelled as `none`. -/
def decodeField (raw : String) : Option String :=
  match b64decodePy raw with
  | .ok bs => some (String.mk (utf8DecodeIgnore bs))
  | .binasciiError => some raw
  | .valueError => none

/-! ## The record model -/

/-- A record as produced by `parse_xml` or `csv.DictReader`: an
association list from field name to value, where a present key may
carry `none` (Python `None`, as XML element text can be) or a string. -/
abbrev Row : Type := List (String × Option String)

/-- Python `key in row` plus the stored value: `some v` when the key is
present with value `v`, `none` when the key is absent. -/
def rowFind (row : Row) (k : String) : Option (Option String) :=
  (List.find? (fun p => p.1 == k) row).map (fun p => p.2)

/-- Python `row.get(k)`: `None` for a missing key, else the value
(itself possibly `None`). -/
def rowGet (row : Row) (k : String) : Option String :=
  (rowFind row k).join

/-- Python truthiness of `k in row and row[k]`: the key is present and
its value is neither `None` nor the empty string. -/
def rowTruthy (row : Row) (k : String) : Bool :=
  match rowFind row k with
  | some (some s) => s ≠ ""
  | _ => false

/-- Python truthiness of an optional-string argument (`None` and `""`
are falsy). -/
def truthyOpt : Option String → Bool
  | some s => s ≠ ""
  | none => false

/-- Python `f"{x}"` of an optional value: `None` renders as `"None"`. -/
def pyStr : Option String → String
  | some s => s
  | none => "None"

/-- The optional arguments of `decode_burp_log` (after `argparse`). -/
structure Args where
  filter_status_code : Option String
  filter_response : Option String
  negative_filter_response : Option String
  response_only : Bool
  json_output : Bool
deriving DecidableEq, Repr

/-- An exception escaping the per-record loop: `re.error` from an
invalid filter pattern, or the `ValueError` from `base64.b64decode` on
non-ASCII raw text. -/
inductive RunError
  | regexErr
  | valueErr
deriving DecidableEq, Repr

/-- One entry of the `log_entries` list built at lines 117-132. -/
structure LogEntry where
  ID : Option String
  Time : Option String
  Tool : Option String
  Method : Option String
  Protocol : Option String
  Host : Option String
  Port : Option String
  URL : Option String
  StatusCode : Option String
  Length : Option String
  MIMEType : Option String
  Comment : Option String
  DecodedHTTPRequest : String
  DecodedHTTPResponse : Option String
deriving DecidableEq, Repr

/-- One observable write to standard output: the argument of a `print`
call (each is followed by a newline), or the final
`print(json.dumps(log_entries, indent=4))` of JSON mode. -/
inductive OutEvent
  | line (s : String)
  | jsonDump (entries : List LogEntry)
deriving DecidableEq, Repr

/-- Modelled from the behaviour of the external `termcolor` library:
`colored(text, color)` wraps the text in the ANSI escape for the color
and the reset escape. -/
def colored (text : String) (color : String) : String :=
  let code : Nat :=
    if color = "cyan" then 36 else if color = "green" then 32
    else if color = "yellow" then 33 else 0
  "\x1b[" ++ toString code ++ "m" ++ text ++ "\x1b[0m"

/-! ## The per-record pipeline of `decode_burp_log` -/

/-- The ASCII whitespace stripped by Python's `str.strip()` (the
unicode space code points it also strips play no role here). -/
def pyWhitespace (c : Char) : Bool :=
  c = ' ' || c = '\t' || c = '\n' || c = '\r' || c = '\x0b' || c = '\x0c'

/-- Python `s.strip()`: drop leading and trailing whitespace. -/
def pyStrip (s : String) : String :=
  String.mk (((s.data.dropWhile pyWhitespace).reverse.dropWhile pyWhitespace).reverse)

/-- Helper for `pySplitComma`: accumulates the current piece reversed. -/
def splitCommaAux : List Char → List Char → List String
  | [], acc => [String.mk acc.reverse]
  | c :: rest, acc =>
    if c = ',' then String.mk acc.reverse :: splitCommaAux rest []
    else splitCommaAux rest (c :: acc)

/-- Python `s.split(',')`: split on every comma, keeping empty pieces
(`"".split(',')` is `[""]`). -/
def pySplitComma (s : String) : List String := splitCommaAux s.data []

/-- The lazy `any(re.search(pattern.strip(), response) for pattern in
patterns)` of lines 91 and 96: stops at the first match; an invalid
pattern reached before any match propagates `re.error` (`none`). -/
def anySearch (research : String → String → Option Bool) (resp : String) :
    List String → Option Bool
  | [] => some false
  | p :: ps =>
    match research (pyStrip p) resp with
    | none => none
    | some true => some true
    | some false => anySearch research resp ps

/-- The status-code filter of line 77: skip the record when a status
filter is supplied (truthy) and `row.get('Status code')` differs. -/
def statusSkip (a : Args) (row : Row) : Bool :=
  truthyOpt a.filter_status_code && (rowGet row "Status code" != a.filter_status_code)

/-- Lines 89-92: the include filter on the decoded response.  `.ok b`
when evaluation completes with keep-verdict `b`; `.error .regexErr`
when `re.search` raises. -/
def includeCheck (research : String → String → Option Bool) (a : Args)
    (resp : String) : Except RunError Bool :=
  if truthyOpt a.filter_response then
    match anySearch research resp (pySplitComma (a.filter_response.getD "")) with
    | none => .error .regexErr
    | some b => .ok b
  else .ok true

/-- Lines 94-97: the exclude filter on the decoded response (keep when
no pattern matches). -/
def excludeCheck (research : String → String → Option Bool) (a : Args)
    (resp : String) : Except RunError Bool :=
  if truthyOpt a.negative_filter_response then
    match anySearch research resp (pySplitComma (a.negative_filter_response.getD "")) with
    | none => .error .regexErr
    | some b => .ok !b
  else .ok true

/-- The include filter followed (only on success) by the exclude
filter, as at lines 89-97. -/
def responseFilters (research : String → String → Option Bool) (a : Args)
    (resp : String) : Except RunError Bool :=
  match includeCheck research a resp with
  | .error e => .error e
  | .ok false => .ok false
  | .ok true => excludeCheck research a resp

/-- Lines 77-97: status filter, response decode, response filters.
`.ok none`: the record is skipped by a filter.  `.ok (some resp?)`:
the record survives with decoded response `resp?` (`none` when the raw
`Response` field is absent, `None`, or empty).  `.error`: an exception
propagates out of the loop. -/
def filterStep (research : String → String → Option Bool) (a : Args)
    (row : Row) : Except RunError (Option (Option String)) :=
  if statusSkip a row then .ok none
  else if rowTruthy row "Response" then
    match decodeField ((rowGet row "Response").getD "") with
    | none => .error .valueErr
    | some resp =>
      match responseFilters research a resp with
      | .error e => .error e
      | .ok true => .ok (some (some resp))
      | .ok false => .ok none
  else .ok (some none)

/-- Lines 100-104: the output of response-only mode for one surviving
record (the decoded response when truthy, then the `print("\n")`
separator). -/
def respOnlyEvents (resp? : Option String) : List OutEvent :=
  (match resp? with
   | some r => if r ≠ "" then [OutEvent.line (colored r "yellow")] else []
   | none => []) ++ [OutEvent.line "\x0a"]

/-- The `log_entry` dictionary of lines 117-132. -/
def mkLogEntry (row : Row) (decReq : String) (resp? : Option String) : LogEntry where
  ID := rowGet row "ID"
  Time := rowGet row "Time"
  Tool := rowGet row "Tool"
  Method := rowGet row "Method"
  Protocol := rowGet row "Protocol"
  Host := rowGet row "Host"
  Port := rowGet row "Port"
  URL := rowGet row "URL"
  StatusCode := rowGet row "Status code"
  Length := rowGet row "Length"
  MIMEType := rowGet row "MIME type"
  Comment := rowGet row "Comment"
  DecodedHTTPRequest := decReq
  DecodedHTTPResponse := resp?

/-- The default text rendering of one record (lines 140-164). -/
def textBlock (row : Row) (decReq : String) (resp? : Option String) : List OutEvent :=
  [OutEvent.line ("ID: " ++ pyStr (rowGet row "ID")),
   OutEvent.line ("Time: " ++ pyStr (rowGet row "Time")),
   OutEvent.line ("Tool: " ++ pyStr (rowGet row "Tool")),
   OutEvent.line ("Method: " ++ pyStr (rowGet row "Method")),
   OutEvent.line ("Protocol: " ++ pyStr (rowGet row "Protocol")),
   OutEvent.line ("Host: " ++ pyStr (rowGet row "Host")),
   OutEvent.line ("Port: " ++ pyStr (rowGet row "Port")),
   OutEvent.line ("URL: " ++ pyStr (rowGet row "URL")),
   OutEvent.line ("Status Code: " ++ pyStr (rowGet row "Status code")),
   OutEvent.line ("Length: " ++ pyStr (rowGet row "Length")),
   OutEvent.line ("MIME Type: " ++ pyStr (rowGet row "MIME type")),
   OutEvent.line ("Comment: " ++ pyStr (rowGet row "Comment")),
   OutEvent.line "\x0a",
   OutEvent.line (colored "Decoded HTTP Request:" "cyan"),
   OutEvent.line (colored decReq "green")] ++
  (match resp? with
   | some r =>
     if r ≠ "" then
       [OutEvent.line "\x0a", OutEvent.line (colored "Decoded HTTP Response:" "cyan"),
        OutEvent.line (colored r "yellow")]
     else []
   | none => []) ++
  [OutEvent.line "\x0a"]

/-- The body of the `for row in raw_entries` loop for one row
(lines 75-133): the events printed for the row and the entry appended
to `log_entries` (if any), or the exception aborting the run. -/
def processRow (research : String → String → Option Bool) (a : Args)
    (row : Row) : Except RunError (List OutEvent × Option LogEntry) :=
  match filterStep research a row with
  | .error e => .error e
  | .ok none => .ok ([], none)
  | .ok (some resp?) =>
    if a.response_only then .ok (respOnlyEvents resp?, none)
    else if !rowTruthy row "Request" then .ok ([], none)
    else
      match decodeField ((rowGet row "Request").getD "") with
      | none => .error .valueErr
      | some decReq =>
        let e := mkLogEntry row decReq resp?
        if a.json_output then .ok ([], some e)
        else .ok (textBlock row decReq resp?, some e)

/-- The whole loop: events already printed when the loop ends or the
exception interrupts it, and on success the accumulated `log_entries`. -/
def processRows (research : String → String → Option Bool) (a : Args) :
    List Row → List OutEvent × Except RunError (List LogEntry)
  | [] => ([], .ok [])
  | r :: rs =>
    match processRow research a r with
    | .error e => ([], .error e)
    | .ok (evs, ent) =>
      match processRows research a rs with
      | (evs', .ok ents) => (evs ++ evs', .ok (ent.toList ++ ents))
      | (evs', .error e) => (evs ++ evs', .error e)

/-- The loop followed by the final JSON dump of lines 166-168: all
standard-output events of the run, and the uncaught exception if one
interrupted it. -/
def runOutput (research : String → String → Option Bool) (a : Args)
    (rows : List Row) : List OutEvent × Option RunError :=
  match processRows research a rows with
  | (evs, .ok ents) =>
    (evs ++ (if a.json_output then [OutEvent.jsonDump ents] else []), none)
  | (evs, .error e) => (evs, some e)

/-! ## Loaders and the top-level function -/

/-- The outcome of the whole `decode_burp_log` call (`main` exits with
the process): standard-output events, the message written to standard
error if any, and the process exit code (0 normal return, 1 for
`sys.exit(1)` at line 72 or an uncaught exception). -/
structure RunResult where
  stdout : List OutEvent
  stderr : Option String
  exitCode : Nat
deriving DecidableEq, Repr

/-- The message of the uncaught exception written to standard error by
the interpreter. -/
def tracebackMsg : RunError → String
  | .regexErr => "re.error: bad pattern"
  | .valueErr => "ValueError: string argument should contain only ASCII characters"

/-- Lines 59-168 of `burp_log_parser.py`: the load (whose possible
file/parse failure is the `Except` input, since opening the file is
I/O), the per-record loop, and the final JSON dump.  A load failure
prints `Error parsing file: ...` to standard error and exits with
code 1 before any record is processed. -/
def decode_burp_log (research : String → String → Option Bool) (a : Args)
    (loaded : Except String (List Row)) : RunResult :=
  match loaded with
  | .error msg => ⟨[], some ("Error parsing file: " ++ msg), 1⟩
  | .ok rows =>
    match runOutput research a rows with
    | (evs, none) => ⟨evs, none, 0⟩
    | (evs, some e) => ⟨evs, some (tracebackMsg e), 1⟩

/-- An `item` element of a Burp XML log as `parse_xml` reads it: for
each recognized child tag, `none` when the element is absent and
`some t` when it is present with text `t` (`t = none` for an empty
element, since `ElementTree` gives empty elements `text = None`). -/
structure XmlItem where
  time : Option (Option String)
  method : Option (Option String)
  protocol : Option (Option String)
  host : Option (Option String)
  port : Option (Option String)
  url : Option (Option String)
  status : Option (Option String)
  responselength : Option (Option String)
  mimetype : Option (Option String)
  comment : Option (Option String)
  request : Option (Option String)
  response : Option (Option String)
deriving DecidableEq, Repr

/-- The `log_entry` dictionary built by `parse_xml` (lines 31-46) for
the item at position `i`: `item.find(tag).text` raises
`AttributeError` (modelled as `none`) when any of the ten metadata
elements is absent, while `request`/`response` use an explicit
`is not None` guard and fall back to `None`. -/
def xmlItemToRow (i : Nat) (it : XmlItem) : Option Row :=
  match it.time, it.method, it.protocol, it.host, it.port, it.url,
      it.status, it.responselength, it.mimetype, it.comment with
  | some t, some me, some pr, some h, some po, some u, some st, some rl,
      some mi, some co =>
    some [("ID", some (toString i)), ("Time", t), ("Tool", some "Burp Suite"),
          ("Method", me), ("Protocol", pr), ("Host", h), ("Port", po),
          ("URL", u), ("Status code", st), ("Length", rl), ("MIME type", mi),
          ("Comment", co), ("Request", it.request.join),
          ("Response", it.response.join)]
  | _, _, _, _, _, _, _, _, _, _ => none

/-- `parse_xml` over the list of `item` elements, numbering them from
`start`: `none` when any item raises `AttributeError` (the exception
reaches the `except Exception` of line 70). -/
def parseXmlItems (start : Nat) : List XmlItem → Option (List Row)
  | [] => some []
  | it :: its =>
    match xmlItemToRow start it with
    | none => none
    | some r =>
      match parseXmlItems (start + 1) its with
      | none => none
      | some rs => some (r :: rs)

/-- The load step for an XML file whose items are `items`: either the
rows, or the load-time error message of the `AttributeError` raised
inside `parse_xml`. -/
def loadXml (items : List XmlItem) : Except String (List Row) :=
  match parseXmlItems 0 items with
  | some rows => .ok rows
  | none => .error "'NoneType' object has no attribute 'text'"

/-- The `csv.DictReader` row for the same logical record as XML item
`it` at position `i`, under the standard Burp CSV header: every cell
is a string, an XML element with `None` text corresponding to the
empty cell. -/
def csvRowOfXml (i : Nat) (it : XmlItem) : Row :=
  [("ID", some (toString i)), ("Time", some ((it.time.join).getD "")),
   ("Tool", some "Burp Suite"),
   ("Method", some ((it.method.join).getD "")),
   ("Protocol", some ((it.protocol.join).getD "")),
   ("Host", some ((it.host.join).getD "")),
   ("Port", some ((it.port.join).getD "")),
   ("URL", some ((it.url.join).getD "")),
   ("Status code", some ((it.status.join).getD "")),
   ("Length", some ((it.responselength.join).getD "")),
   ("MIME type", some ((it.mimetype.join).getD "")),
   ("Comment", some ((it.comment.join).getD "")),
   ("Request", some ((it.request.join).getD "")),
   ("Response", some ((it.response.join).getD ""))]

/-! ## Derived views used by the claims -/

/-- The decoded response of a row as the loop computes it at lines
80-86: `some none` when the raw field is absent or falsy (the variable
stays `None`), `some (some s)` on a successful decode, `none` when the
decode raises the uncaught `ValueError`. -/
def decodedResponseOpt (row : Row) : Option (Option String) :=
  if rowTruthy row "Response" then
    (decodeField ((rowGet row "Response").getD "")).map some
  else some none

/-- The decoded request of a row as lines 107-113 compute it:
`some none` when the raw field is absent or falsy (the record is
skipped), `some (some s)` on a successful decode, `none` for the
uncaught `ValueError`. -/
def decodedRequestOpt (row : Row) : Option (Option String) :=
  if rowTruthy row "Request" then
    (decodeField ((rowGet row "Request").getD "")).map some
  else some none

/-- The `log_entries` contribution of one row: the entry it appends,
if its processing completes and appends one. -/
def rowEntry (research : String → String → Option Bool) (a : Args)
    (row : Row) : Option LogEntry :=
  match processRow research a row with
  | .ok (_, ent) => ent
  | .error _ => none

deriving instance DecidableEq for Except

/-- `base64.b64encode(T.encode("utf-8")).decode()`: the base64 text of
the UTF-8 encoding of `T` (the form in which Burp stores bodies). -/
def b64encodeStr (s : String) : String := String.mk (b64encodeBytes (utf8Encode s))

/-- Whether `n` is a leading piece of `hay`. -/
def leadingPiece : List Char → List Char → Bool
  | [], _ => true
  | _ :: _, [] => false
  | a :: as, b :: bs => a = b && leadingPiece as bs

/-- Whether `n` occurs contiguously anywhere inside the second list. -/
def occursIn (n : List Char) : List Char → Bool
  | [] => leadingPiece n []
  | b :: bs => leadingPiece n (b :: bs) || occursIn n bs

/-- A concrete search function for sample runs: plain substring search,
the special case of an unanchored `re.search` whose pattern has no
metacharacters. -/
def searchSubstr : String → String → Option Bool :=
  fun p s => some (occursIn p.data s.data)

/-- A concrete search function modelling an invalid regular expression:
`re.search` raises `re.error` whatever the subject string is. -/
def searchFail : String → String → Option Bool := fun _ _ => none

/-- Sample arguments: JSON mode, no filters. -/
def sampleArgsJson : Args := ⟨none, none, none, false, true⟩

/-- Sample arguments: response-only mode, no filters. -/
def sampleArgsRespOnly : Args := ⟨none, none, none, true, false⟩

/-- Sample arguments: default text mode with an include filter. -/
def sampleArgsInclude : Args := ⟨none, some "(", none, false, false⟩

/-- Sample arguments: default text mode, include patterns `xx,ell`. -/
def sampleArgsEll : Args := ⟨none, some "xx,ell", none, false, false⟩

/-- A row with a base64 response (`Hello`) and no `Request` key. -/
def sampleRowNoRequest : Row := [("Response", some "SGVsbG8=")]

/-- A complete row: request `GET /`, response `Hello`, status 200. -/
def sampleRowFull : Row :=
  [("ID", some "0"), ("Status code", some "200"),
   ("Request", some "R0VUIC8="), ("Response", some "SGVsbG8=")]

/-- A row whose raw response holds a non-ASCII character. -/
def sampleRowNonAscii : Row := [("Response", some "é"), ("Request", some "QQ==")]

/-- A row with a request but no `Response` key. -/
def sampleRowNoResponse : Row :=
  [("ID", some "1"), ("Status code", some "200"), ("Request", some "R0VUIC8=")]

/-- A complete XML item (the comment element is present but empty). -/
def sampleItem : XmlItem :=
  ⟨some (some "T"), some (some "GET"), some (some "http"), some (some "h"),
   some (some "80"), some (some "/u"), some (some "200"), some (some "5"),
   some (some "text"), some none, some (some "R0VUIC8="), some (some "SGVsbG8=")⟩

/-- An XML item whose `time` element is missing. -/
def sampleItemNoTime : XmlItem :=
  ⟨none, some (some "GET"), some (some "http"), some (some "h"), some (some "80"),
   some (some "/u"), some (some "200"), some (some "5"), some (some "text"),
   some none, none, none⟩

/-- The row `parse_xml` builds from `sampleItem` at position 0. -/
def sampleXmlRow : Row :=
  [("ID", some "0"), ("Time", some "T"), ("Tool", some "Burp Suite"),
   ("Method", some "GET"), ("Protocol", some "http"), ("Host", some "h"),
   ("Port", some "80"), ("URL", some "/u"), ("Status code", some "200"),
   ("Length", some "5"), ("MIME type", some "text"), ("Comment", none),
   ("Request", some "R0VUIC8="), ("Response", some "SGVsbG8=")]

/-! ## Round-trip lemmas for the decoders -/

theorem table_a2b_alph : ∀ n, n < 64 → table_a2b (b64alph n) = some n ∧ b64alph n ≠ '=' := by
  decide

theorem alph_ascii : ∀ n, n < 64 → (b64alph n).toNat < 128 := by decide

theorem a2b_encode : ∀ (l acc : List Nat), (∀ b ∈ l, b < 256) →
    a2bAux (b64encodeBytes l) 0 0 0 acc = some (acc ++ l)
  | [], acc, _ => by simp [b64encodeBytes, a2bAux]
  | [b0], acc, h => by
    have hb0 : b0 < 256 := h b0 (by simp)
    have h1 := table_a2b_alph (b0 / 4) (by omega)
    have h2 := table_a2b_alph (b0 % 4 * 16) (by omega)
    simp only [b64encodeBytes, a2bAux, h1.1, h1.2, h2.1, h2.2, if_neg, if_pos]
    norm_num
    omega
  | [b0, b1], acc, h => by
    have hb0 : b0 < 256 := h b0 (by simp)
    have hb1 : b1 < 256 := h b1 (by simp)
    have h1 := table_a2b_alph (b0 / 4) (by omega)
    have h2 := table_a2b_alph (b0 % 4 * 16 + b1 / 16) (by omega)
    have h3 := table_a2b_alph (b1 % 16 * 4) (by omega)
    simp only [b64encodeBytes, a2bAux, h1.1, h1.2, h2.1, h2.2, h3.1, h3.2, if_neg, if_pos]
    norm_num
    constructor <;> omega
  | b0 :: b1 :: b2 :: rest, acc, h => by
    have hb0 : b0 < 256 := h b0 (by simp)
    have hb1 : b1 < 256 := h b1 (by simp)
    have hb2 : b2 < 256 := h b2 (by simp)
    have h1 := table_a2b_alph (b0 / 4) (by omega)
    have h2 := table_a2b_alph (b0 % 4 * 16 + b1 / 16) (by omega)
    have h3 := table_a2b_alph (b1 % 16 * 4 + b2 / 64) (by omega)
    have h4 := table_a2b_alph (b2 % 64) (by omega)
    have ih := a2b_encode rest (acc ++ [b0 / 4 * 4 + (b0 % 4 * 16 + b1 / 16) / 16,
      (b0 % 4 * 16 + b1 / 16) % 16 * 16 + (b1 % 16 * 4 + b2 / 64) / 4,
      (b1 % 16 * 4 + b2 / 64) % 4 * 64 + b2 % 64]) (fun b hb => h b (by simp [hb]))
    simp only [b64encodeBytes, a2bAux, h1.1, h1.2, h2.1, h2.2, h3.1, h3.2, h4.1, h4.2,
      if_neg, if_pos]
    norm_num
    rw [ih]
    have e1 : b0 / 4 * 4 + (b0 % 4 * 16 + b1 / 16) / 16 = b0 := by omega
    have e2 : (b0 % 4 * 16 + b1 / 16) % 16 * 16 + (b1 % 16 * 4 + b2 / 64) / 4 = b1 := by omega
    have e3 : (b1 % 16 * 4 + b2 / 64) % 4 * 64 + b2 % 64 = b2 := by omega
    rw [e1, e2, e3]
    simp

set_option maxHeartbeats 2000000 in
theorem utf8Go_congr : ∀ (f : Nat) (l : List Nat) (g : Nat),
    l.length ≤ f → l.length ≤ g → utf8Go f l = utf8Go g l := by
  intro f
  induction f with
  | zero =>
    intro l g hf _
    match l, g with
    | [], 0 => rfl
    | [], g + 1 => rfl
    | b :: t, g => simp at hf
  | succ f ih =>
    intro l g hf hg
    match l, g with
    | [], 0 => rfl
    | [], g + 1 => rfl
    | b0 :: t0, g + 1 =>
      simp only [List.length_cons] at hf hg
      rcases t0 with _ | ⟨b1, t1⟩
      · simp only [utf8Go]
        split_ifs <;> first
          | rfl
          | (apply congrArg; apply ih <;>
              ((try simp only [List.length_cons, List.length_nil]); omega))
          | (apply ih <;> ((try simp only [List.length_cons, List.length_nil]); omega))
      · simp only [List.length_cons] at hf hg
        rcases t1 with _ | ⟨b2, t2⟩
        · simp only [utf8Go]
          split_ifs <;> first
            | rfl
            | (apply congrArg; apply ih <;>
                ((try simp only [List.length_cons, List.length_nil]); omega))
            | (apply ih <;> ((try simp only [List.length_cons, List.length_nil]); omega))
        · simp only [List.length_cons] at hf hg
          rcases t2 with _ | ⟨b3, t3⟩
          · simp only [utf8Go]
            split_ifs <;> first
              | rfl
              | (apply congrArg; apply ih <;>
                  ((try simp only [List.length_cons, List.length_nil]); omega))
              | (apply ih <;> ((try simp only [List.length_cons, List.length_nil]); omega))
          · simp only [List.length_cons] at hf hg
            simp only [utf8Go]
            split_ifs <;> first
              | rfl
              | (apply congrArg; apply ih <;>
                  ((try simp only [List.length_cons, List.length_nil]); omega))
              | (apply ih <;> ((try simp only [List.length_cons, List.length_nil]); omega))

theorem utf8_round_char (c : Char) (rest : List Nat) :
    utf8DecodeIgnore (utf8EncodeChar c ++ rest) = c :: utf8DecodeIgnore rest := by
  have hofn : Char.ofNat c.toNat = c := Char.ofNat_toNat c
  have hv : c.toNat < 0xD800 ∨ (0xDFFF < c.toNat ∧ c.toNat < 0x110000) := by
    rcases c.valid with h | h
    · left; exact_mod_cast h
    · right; exact ⟨by exact_mod_cast h.1, by exact_mod_cast h.2⟩
  by_cases h1 : c.toNat < 0x80
  · have he : utf8EncodeChar c = [c.toNat] := by
      simp only [utf8EncodeChar]
      rw [if_pos h1]
    rw [he, List.singleton_append]
    unfold utf8DecodeIgnore
    simp only [List.length_cons]
    simp only [utf8Go]
    rw [if_pos h1, hofn]
  · by_cases h2 : c.toNat < 0x800
    · have he : utf8EncodeChar c = [0xC0 + c.toNat / 64, 0x80 + c.toNat % 64] := by
        simp only [utf8EncodeChar]
        rw [if_neg h1, if_pos h2]
      rw [he]
      unfold utf8DecodeIgnore
      simp only [List.cons_append, List.nil_append, List.length_cons]
      simp only [utf8Go]
      rw [if_neg (by omega), if_pos (by omega),
        if_pos (show isCont (0x80 + c.toNat % 64) by unfold isCont; omega)]
      rw [show (0xC0 + c.toNat / 64 - 0xC0) * 64 + (0x80 + c.toNat % 64 - 0x80) = c.toNat
        by omega, hofn]
      rw [utf8Go_congr (rest.length + 1) rest rest.length (by omega) le_rfl]
    · by_cases h3 : c.toNat < 0x10000
      · have he : utf8EncodeChar c =
            [0xE0 + c.toNat / 4096, 0x80 + c.toNat / 64 % 64, 0x80 + c.toNat % 64] := by
          simp only [utf8EncodeChar]
          rw [if_neg h1, if_neg h2, if_pos h3]
        rw [he]
        unfold utf8DecodeIgnore
        simp only [List.cons_append, List.nil_append, List.length_cons]
        simp only [utf8Go]
        rw [if_neg (by omega), if_neg (by omega), if_pos (by omega),
          if_pos (by split_ifs <;> first | omega | (unfold isCont; omega)),
          if_pos (show isCont (0x80 + c.toNat % 64) by unfold isCont; omega)]
        rw [show (0xE0 + c.toNat / 4096 - 0xE0) * 4096 + (0x80 + c.toNat / 64 % 64 - 0x80)
            * 64 + (0x80 + c.toNat % 64 - 0x80) = c.toNat by omega, hofn]
        rw [utf8Go_congr (rest.length + 2) rest rest.length (by omega) le_rfl]
      · have h4 : c.toNat < 0x110000 := by omega
        have he : utf8EncodeChar c =
            [0xF0 + c.toNat / 262144, 0x80 + c.toNat / 4096 % 64,
             0x80 + c.toNat / 64 % 64, 0x80 + c.toNat % 64] := by
          simp only [utf8EncodeChar]
          rw [if_neg h1, if_neg h2, if_neg h3]
        rw [he]
        unfold utf8DecodeIgnore
        simp only [List.cons_append, List.nil_append, List.length_cons]
        simp only [utf8Go]
        rw [if_neg (by omega), if_neg (by omega), if_neg (by omega), if_pos (by omega),
          if_pos (by split_ifs <;> first | omega | (unfold isCont; omega)),
          if_pos (show isCont (0x80 + c.toNat / 64 % 64) by unfold isCont; omega),
          if_pos (show isCont (0x80 + c.toNat % 64) by unfold isCont; omega)]
        rw [show (0xF0 + c.toNat / 262144 - 0xF0) * 262144 + (0x80 + c.toNat / 4096 % 64
            - 0x80) * 4096 + (0x80 + c.toNat / 64 % 64 - 0x80) * 64 +
            (0x80 + c.toNat % 64 - 0x80) = c.toNat by omega, hofn]
        rw [utf8Go_congr (rest.length + 3) rest rest.length (by omega) le_rfl]

theorem utf8EncodeChar_lt (c : Char) : ∀ b ∈ utf8EncodeChar c, b < 256 := by
  have hv : c.toNat < 1114112 := by
    rcases c.valid with h | h
    · have h2 : c.toNat < 55296 := by exact_mod_cast h
      omega
    · exact_mod_cast h.2
  intro b hb
  simp only [utf8EncodeChar] at hb
  split_ifs at hb <;> simp at hb <;> omega

theorem utf8Encode_lt (s : String) : ∀ b ∈ utf8Encode s, b < 256 := by
  intro b hb
  unfold utf8Encode at hb
  rw [List.mem_flatMap] at hb
  obtain ⟨c, _, hc⟩ := hb
  exact utf8EncodeChar_lt c b hc

theorem b64encode_ascii : ∀ (l : List Nat), (∀ b ∈ l, b < 256) →
    ∀ ch ∈ b64encodeBytes l, ch.toNat < 128
  | [], _ => by simp [b64encodeBytes]
  | [b0], h => by
    have hb0 : b0 < 256 := h b0 (by simp)
    intro ch hch
    simp only [b64encodeBytes, List.mem_cons, List.not_mem_nil, or_false] at hch
    rcases hch with rfl | rfl | rfl | rfl <;>
      first | exact alph_ascii _ (by omega) | decide
  | [b0, b1], h => by
    have hb0 : b0 < 256 := h b0 (by simp)
    have hb1 : b1 < 256 := h b1 (by simp)
    intro ch hch
    simp only [b64encodeBytes, List.mem_cons, List.not_mem_nil, or_false] at hch
    rcases hch with rfl | rfl | rfl | rfl <;>
      first | exact alph_ascii _ (by omega) | decide
  | b0 :: b1 :: b2 :: rest, h => by
    have hb0 : b0 < 256 := h b0 (by simp)
    have hb1 : b1 < 256 := h b1 (by simp)
    have hb2 : b2 < 256 := h b2 (by simp)
    intro ch hch
    simp only [b64encodeBytes, List.mem_cons] at hch
    rcases hch with rfl | rfl | rfl | rfl | hch
    · exact alph_ascii _ (by omega)
    · exact alph_ascii _ (by omega)
    · exact alph_ascii _ (by omega)
    · exact alph_ascii _ (by omega)
    · exact b64encode_ascii rest (fun b hb => h b (by simp [hb])) ch hch

theorem utf8_round : ∀ (l : List Char), utf8DecodeIgnore (l.flatMap utf8EncodeChar) = l
  | [] => rfl
  | c :: cs => by
    rw [List.flatMap_cons, utf8_round_char, utf8_round cs]

/-- C6: for every text `T`, the content decoder applied to the base64
encoding of `T` yields exactly `T`: the decode step of lines 83-86 and
110-113 is a left inverse of base64-encoding UTF-8 text. -/
theorem claim6_decode_roundtrip (T : String) : decodeField (b64encodeStr T) = some T := by
  have hbytes : ∀ b ∈ utf8Encode T, b < 256 := utf8Encode_lt T
  have hascii : ∀ ch ∈ b64encodeBytes (utf8Encode T), ch.toNat < 128 :=
    b64encode_ascii _ hbytes
  unfold b64encodeStr decodeField b64decodePy
  rw [if_pos (by
    rw [show (String.mk (b64encodeBytes (utf8Encode T))).data =
      b64encodeBytes (utf8Encode T) from rfl]
    rw [List.all_eq_true]
    intro c hc
    simpa using hascii c hc)]
  rw [show (String.mk (b64encodeBytes (utf8Encode T))).data =
    b64encodeBytes (utf8Encode T) from rfl]
  rw [a2b_encode _ [] hbytes]
  simp only [List.nil_append]
  rw [show utf8Encode T = T.data.flatMap utf8EncodeChar from rfl, utf8_round]
/-! ## Structural lemmas about the record loop -/

theorem processRow_json_no_events (research : String → String → Option Bool) (a : Args)
    (row : Row) (hro : a.response_only = false) (hj : a.json_output = true)
    (evs : List OutEvent) (ent : Option LogEntry)
    (h : processRow research a row = .ok (evs, ent)) : evs = [] := by
  unfold processRow at h
  rw [hro, hj] at h
  cases hfs : filterStep research a row <;> rw [hfs] at h
  case error => simp at h
  case ok o =>
    cases o with
    | none =>
      simp only [Except.ok.injEq, Prod.mk.injEq] at h
      exact h.1.symm
    | some resp? =>
      simp only [Bool.false_eq_true, if_false] at h
      cases hR : rowTruthy row "Request" <;> rw [hR] at h
      · simp at h
        exact h.1
      · simp only [Bool.not_true, Bool.false_eq_true, if_false] at h
        cases hdec : decodeField ((rowGet row "Request").getD "") <;> rw [hdec] at h
        · simp at h
        · simp at h
          exact h.1

theorem processRows_entries (research : String → String → Option Bool) (a : Args) :
    ∀ (rows : List Row) (evs : List OutEvent) (ents : List LogEntry),
      processRows research a rows = (evs, .ok ents) →
      ents = rows.filterMap (rowEntry research a)
  | [], evs, ents, h => by
    simp only [processRows, Prod.mk.injEq] at h
    simpa using (Except.ok.inj h.2).symm
  | r :: rs, evs, ents, h => by
    unfold processRows at h
    cases hp : processRow research a r with
    | error e => rw [hp] at h; simp at h
    | ok p =>
      rw [hp] at h
      obtain ⟨evs0, ent⟩ := p
      cases hps : processRows research a rs with
      | mk evs' res =>
        rw [hps] at h
        cases res with
        | error e => simp at h
        | ok ents' =>
          simp only [Prod.mk.injEq, Except.ok.injEq] at h
          have ih := processRows_entries research a rs evs' ents' (by rw [hps])
          rw [List.filterMap_cons]
          rw [show rowEntry research a r = ent by unfold rowEntry; rw [hp]]
          cases ent with
          | none => simpa [← h.2] using ih
          | some e => simp [← h.2, ih]

theorem processRows_json_events (research : String → String → Option Bool) (a : Args)
    (hro : a.response_only = false) (hj : a.json_output = true) :
    ∀ (rows : List Row) (evs : List OutEvent) (ents : List LogEntry),
      processRows research a rows = (evs, .ok ents) → evs = []
  | [], evs, ents, h => by simp only [processRows, Prod.mk.injEq] at h; exact h.1.symm
  | r :: rs, evs, ents, h => by
    unfold processRows at h
    cases hp : processRow research a r with
    | error e => rw [hp] at h; simp at h
    | ok p =>
      rw [hp] at h
      obtain ⟨evs0, ent⟩ := p
      cases hps : processRows research a rs with
      | mk evs' res =>
        rw [hps] at h
        cases res with
        | error e => simp at h
        | ok ents' =>
          simp only [Prod.mk.injEq, Except.ok.injEq] at h
          have h0 : evs0 = [] := processRow_json_no_events research a r hro hj evs0 ent hp
          have ih := processRows_json_events research a hro hj rs evs' ents' (by rw [hps])
          rw [← h.1, h0, ih]
          rfl

theorem processRows_abort (research : String → String → Option Bool) (a : Args) :
    ∀ (rows₁ : List Row) (row : Row) (rows₂ : List Row) (e : RunError),
      (∀ r ∈ rows₁, ∃ p, processRow research a r = .ok p) →
      processRow research a row = .error e →
      processRows research a (rows₁ ++ row :: rows₂) =
        ((processRows research a rows₁).1, .error e)
  | [], row, rows₂, e, _, herr => by
    simp only [List.nil_append]
    unfold processRows
    rw [herr]
  | r :: rows₁, row, rows₂, e, hok, herr => by
    obtain ⟨p, hp⟩ := hok r (by simp)
    have ih := processRows_abort research a rows₁ row rows₂ e
      (fun r' hr' => hok r' (by simp [hr'])) herr
    simp only [List.cons_append]
    unfold processRows
    rw [hp, ih]
    obtain ⟨evs0, ent⟩ := p
    cases hps : processRows research a rows₁ with
    | mk evs' res => cases res <;> simp [hps]

theorem anySearch_ne_none (research : String → String → Option Bool) (resp : String) :
    ∀ (ps : List String), (∀ p ∈ ps, research (pyStrip p) resp ≠ none) →
      anySearch research resp ps ≠ none
  | [], _ => by simp [anySearch]
  | p :: ps, hval => by
    unfold anySearch
    cases hr : research (pyStrip p) resp with
    | none => exact absurd hr (hval p (by simp))
    | some b =>
      cases b
      · exact anySearch_ne_none research resp ps (fun q hq => hval q (by simp [hq]))
      · simp

theorem anySearch_true_iff (research : String → String → Option Bool) (resp : String) :
    ∀ (ps : List String), (∀ p ∈ ps, research (pyStrip p) resp ≠ none) →
      (anySearch research resp ps = some true ↔
        ∃ p ∈ ps, research (pyStrip p) resp = some true)
  | [], _ => by simp [anySearch]
  | p :: ps, hval => by
    have ih := anySearch_true_iff research resp ps (fun q hq => hval q (by simp [hq]))
    unfold anySearch
    cases hr : research (pyStrip p) resp with
    | none => exact absurd hr (hval p (by simp))
    | some b =>
      cases b
      · rw [ih]
        constructor
        · rintro ⟨q, hq, hqt⟩
          exact ⟨q, by simp [hq], hqt⟩
        · rintro ⟨q, hq, hqt⟩
          rcases List.mem_cons.mp hq with rfl | hq'
          · rw [hr] at hqt
            cases hqt
          · exact ⟨q, hq', hqt⟩
      · simp only [true_iff]
        exact ⟨p, by simp, hr⟩

theorem statusSkip_congr (a : Args) (v : Option String) (r1 r2 : Row)
    (h1 : rowGet r1 "Status code" = v)
    (h2 : rowGet r2 "Status code" = some (v.getD "")) :
    statusSkip a r1 = statusSkip a r2 := by
  unfold statusSkip
  rw [h1, h2]
  cases hf : a.filter_status_code with
  | none => simp [truthyOpt]
  | some fsc =>
    by_cases he : fsc = ""
    · simp [truthyOpt, he]
    · cases v with
      | none => simp [truthyOpt, he, bne, Ne.symm he]
      | some x => simp [truthyOpt, bne]

theorem filterStep_congr (research : String → String → Option Bool) (a : Args)
    (r1 r2 : Row) (hss : statusSkip a r1 = statusSkip a r2)
    (ht : rowTruthy r1 "Response" = rowTruthy r2 "Response")
    (hg : (rowGet r1 "Response").getD "" = (rowGet r2 "Response").getD "") :
    filterStep research a r1 = filterStep research a r2 := by
  unfold filterStep
  rw [hss, ht, hg]

theorem decodedRequestOpt_congr (r1 r2 : Row)
    (ht : rowTruthy r1 "Request" = rowTruthy r2 "Request")
    (hg : (rowGet r1 "Request").getD "" = (rowGet r2 "Request").getD "") :
    decodedRequestOpt r1 = decodedRequestOpt r2 := by
  unfold decodedRequestOpt
  rw [ht, hg]

theorem decodedResponseOpt_congr (r1 r2 : Row)
    (ht : rowTruthy r1 "Response" = rowTruthy r2 "Response")
    (hg : (rowGet r1 "Response").getD "" = (rowGet r2 "Response").getD "") :
    decodedResponseOpt r1 = decodedResponseOpt r2 := by
  unfold decodedResponseOpt
  rw [ht, hg]

theorem xmlItemToRow_missing (i : Nat) (it : XmlItem)
    (h : it.time = none ∨ it.method = none ∨ it.protocol = none ∨ it.host = none ∨
      it.port = none ∨ it.url = none ∨ it.status = none ∨ it.responselength = none ∨
      it.mimetype = none ∨ it.comment = none) :
    xmlItemToRow i it = none := by
  rcases it with ⟨t, me, pr, ho, po, u, st, rl, mi, co, rq, rs⟩
  simp only at h
  rcases t with _ | t <;> rcases me with _ | me <;> rcases pr with _ | pr <;>
    rcases ho with _ | ho <;> rcases po with _ | po <;> rcases u with _ | u <;>
    rcases st with _ | st <;> rcases rl with _ | rl <;> rcases mi with _ | mi <;>
    rcases co with _ | co <;> first | rfl | simp_all

theorem parseXmlItems_none (it : XmlItem)
    (hnone : ∀ k, xmlItemToRow k it = none) :
    ∀ (start : Nat) (items : List XmlItem), it ∈ items →
      parseXmlItems start items = none
  | start, [], h => absurd h (List.not_mem_nil it)
  | start, i0 :: items, h => by
    unfold parseXmlItems
    rcases List.mem_cons.mp h with rfl | hmem
    · rw [hnone start]
    · cases hx : xmlItemToRow start i0 with
      | none => rfl
      | some r => rw [parseXmlItems_none it hnone (start + 1) items hmem]

/-! ## The claims -/

/-- C1, amended: for every raw string `S` on which `base64.b64decode`
raises `binascii.Error` (necessarily an ASCII string, since a non-ASCII
string raises `ValueError` instead), the decode step produces `S`
verbatim and does not raise.  The original claim fails for non-ASCII
raw strings: see the counterexample. -/
theorem claim1_fallback_verbatim (s : String) (h : b64decodePy s = .binasciiError) :
    decodeField s = some s := by
  unfold decodeField
  rw [h]

/-- C1, counterexample to the claim as stated: the raw string `é` is
not valid base64, yet the decode step does not fall back to it
verbatim: `base64.b64decode` raises an uncaught `ValueError`
(modelled as `none`), and a record carrying it aborts the whole run. -/
theorem claim1_counterexample :
    b64decodePy "é" = B64Result.valueError ∧ decodeField "é" = none ∧
    runOutput searchSubstr sampleArgsJson [sampleRowNonAscii] =
      ([], some RunError.valueErr) := by decide

/-- C1 witness. -/
theorem claim1_fallback_verbatim_witness :
    b64decodePy "not-base64-###" = B64Result.binasciiError ∧
    decodeField "not-base64-###" = some "not-base64-###" :=
  ⟨by decide, claim1_fallback_verbatim "not-base64-###" (by decide)⟩

/-- C2, amended: in JSON mode (and not response-only mode), when the
loop completes without an uncaught exception, exactly one JSON array is
printed and nothing else; it contains, in input order, the full field
set of each record that survives all applicable filters AND has a
truthy raw `Request` field that decodes without the uncaught
`ValueError` (those are exactly the records `rowEntry` keeps); zero
accumulated records give the empty array.  The original claim fails
because a surviving record without a raw `Request` field is not
accumulated: see the counterexample. -/
theorem claim2_json_array (research : String → String → Option Bool) (a : Args)
    (rows : List Row) (evs : List OutEvent) (ents : List LogEntry)
    (hro : a.response_only = false) (hj : a.json_output = true)
    (h : processRows research a rows = (evs, .ok ents)) :
    runOutput research a rows = ([OutEvent.jsonDump ents], none) ∧
      ents = rows.filterMap (rowEntry research a) := by
  constructor
  · unfold runOutput
    rw [h, hj]
    rw [processRows_json_events research a hro hj rows evs ents h]
    rfl
  · exact processRows_entries research a rows evs ents h

/-- C2, counterexample to the claim as stated: this record survives
every applicable filter (the filter step keeps it, with decoded
response `Hello`), yet in JSON mode the printed array is empty instead
of containing its field set. -/
theorem claim2_counterexample :
    filterStep searchSubstr sampleArgsJson sampleRowNoRequest =
      .ok (some (some "Hello")) ∧
    runOutput searchSubstr sampleArgsJson [sampleRowNoRequest] =
      ([OutEvent.jsonDump []], none) := by decide

/-- C2 witness. -/
theorem claim2_json_array_witness :
    runOutput searchSubstr sampleArgsJson [sampleRowFull] =
      ([OutEvent.jsonDump [mkLogEntry sampleRowFull "GET /" (some "Hello")]], none) ∧
    [mkLogEntry sampleRowFull "GET /" (some "Hello")] =
      [sampleRowFull].filterMap (rowEntry searchSubstr sampleArgsJson) :=
  claim2_json_array searchSubstr sampleArgsJson [sampleRowFull] []
    [mkLogEntry sampleRowFull "GET /" (some "Hello")] rfl rfl (by decide)

/-- C3: when a record reaches the response filters and their evaluation
raises `re.error` (which is what `responseFilters ... = .error regexErr`
states: an invalid include or exclude pattern was used for the first
time), the exception propagates out of the loop at that first use: the
run aborts with that error surfaced, the loop emits only the output of
the earlier records, and no later record is processed -- the error is
never caught per-record. -/
theorem claim3_invalid_pattern_aborts (research : String → String → Option Bool) (a : Args)
    (rows₁ : List Row) (row : Row) (rows₂ : List Row) (resp : String)
    (hok : ∀ r ∈ rows₁, ∃ p, processRow research a r = .ok p)
    (hskip : statusSkip a row = false)
    (htr : rowTruthy row "Response" = true)
    (hdec : decodeField ((rowGet row "Response").getD "") = some resp)
    (hre : responseFilters research a resp = .error RunError.regexErr) :
    runOutput research a (rows₁ ++ row :: rows₂) =
      ((processRows research a rows₁).1, some RunError.regexErr) := by
  have hfs : filterStep research a row = .error RunError.regexErr := by
    simp [filterStep, hskip, htr, hdec, hre]
  have herr : processRow research a row = .error RunError.regexErr := by
    unfold processRow
    rw [hfs]
  unfold runOutput
  rw [processRows_abort research a rows₁ row rows₂ _ hok herr]

/-- C3 witness. -/
theorem claim3_invalid_pattern_aborts_witness :
    runOutput searchFail sampleArgsInclude
      ([] ++ sampleRowNoRequest :: [sampleRowFull]) =
      ((processRows searchFail sampleArgsInclude []).1, some RunError.regexErr) :=
  claim3_invalid_pattern_aborts searchFail sampleArgsInclude [] sampleRowNoRequest
    [sampleRowFull] "Hello" (by simp) (by decide) (by decide) (by decide) (by decide)

/-- C4: a record with no truthy raw `Response` field (hence no decoded
response text) never has the include or exclude filters applied: its
filter step depends neither on the search function nor on the pattern
arguments, and the record is skipped exactly when the status-code
filter excludes it. -/
theorem claim4_no_response_filters (research : String → String → Option Bool) (a : Args)
    (row : Row) (h : rowTruthy row "Response" = false) :
    filterStep research a row =
      .ok (if statusSkip a row then none else some none) := by
  unfold filterStep
  rw [h]
  by_cases hs : statusSkip a row <;> simp [hs]

/-- C4 witness (the filters of `sampleArgsInclude` would raise with
`searchFail`, yet the record passes untouched). -/
theorem claim4_no_response_filters_witness :
    filterStep searchFail sampleArgsInclude sampleRowNoResponse =
      .ok (if statusSkip sampleArgsInclude sampleRowNoResponse then none
           else some none) :=
  claim4_no_response_filters searchFail sampleArgsInclude sampleRowNoResponse (by decide)

/-- C5: when `filter_response` is supplied (truthy) and the record has
decoded response text `resp`, and no supplied pattern is an invalid
regular expression, the record is kept by the include filter if and only
if at least one comma-separated pattern (stripped) matches the decoded
response under the unanchored `re.search` (modelled by `research`). -/
theorem claim5_include_iff (research : String → String → Option Bool) (a : Args)
    (row : Row) (fr resp : String)
    (hfr : a.filter_response = some fr) (hne : fr ≠ "")
    (hresp : decodedResponseOpt row = some (some resp))
    (hval : ∀ p ∈ pySplitComma fr, research (pyStrip p) resp ≠ none) :
    (includeCheck research a resp = .ok true ↔
      ∃ p ∈ pySplitComma fr, research (pyStrip p) resp = some true) := by
  unfold includeCheck
  rw [hfr]
  rw [if_pos (show truthyOpt (some fr) = true by simp [truthyOpt, hne])]
  simp only [Option.getD_some]
  cases hs : anySearch research resp (pySplitComma fr) with
  | none => exact absurd hs (anySearch_ne_none research resp _ hval)
  | some b =>
    rw [← anySearch_true_iff research resp _ hval, hs]
    cases b <;> simp

/-- C5 witness, with plain substring search standing in for
`re.search` on literal patterns: the second pattern `ell` matches in
the middle of `Hello`, unanchored. -/
theorem claim5_include_iff_witness :
    includeCheck searchSubstr sampleArgsEll "Hello" = .ok true ↔
      ∃ p ∈ pySplitComma "xx,ell", searchSubstr (pyStrip p) "Hello" = some true :=
  claim5_include_iff searchSubstr sampleArgsEll sampleRowNoRequest "xx,ell" "Hello"
    rfl (by decide) (by decide) (by decide)

/-- C7: when the load step fails (file not openable, malformed XML, or a
broken tabular structure -- any exception caught at lines 70-72), the
whole run aborts before any record is processed: the error message is
written to standard error, the exit code is 1, and nothing is printed
to standard output. -/
theorem claim7_load_failure (research : String → String → Option Bool) (a : Args)
    (msg : String) :
    decode_burp_log research a (.error msg) =
      ⟨[], some ("Error parsing file: " ++ msg), 1⟩ := rfl

/-- C8: the same logical record expressed as an XML item and as the
equivalent tabular row (same field values, an empty-text XML element
corresponding to an empty CSV cell) produces an identical keep/skip
filter outcome and identical decoded request and response texts. -/
theorem claim8_format_equivalence (research : String → String → Option Bool) (a : Args)
    (i : Nat) (it : XmlItem) (xr : Row) (hx : xmlItemToRow i it = some xr) :
    filterStep research a xr = filterStep research a (csvRowOfXml i it) ∧
    decodedRequestOpt xr = decodedRequestOpt (csvRowOfXml i it) ∧
    decodedResponseOpt xr = decodedResponseOpt (csvRowOfXml i it) := by
  rcases it with ⟨t, me, pr, ho, po, u, st, rl, mi, co, rq, rs⟩
  unfold xmlItemToRow at hx
  rcases t with _ | t <;> rcases me with _ | me <;> rcases pr with _ | pr <;>
    rcases ho with _ | ho <;> rcases po with _ | po <;> rcases u with _ | u <;>
    rcases st with _ | st <;> rcases rl with _ | rl <;> rcases mi with _ | mi <;>
    rcases co with _ | co <;> (try cases hx)
  refine ⟨filterStep_congr research a _ _ (statusSkip_congr a st _ _ ?_ ?_) ?_ ?_,
    decodedRequestOpt_congr _ _ ?_ ?_, decodedResponseOpt_congr _ _ ?_ ?_⟩
  · simp [rowGet, rowFind]
  · simp [rowGet, rowFind, csvRowOfXml]
  · simp only [rowTruthy, rowFind, csvRowOfXml]
    simp
    cases hj : rs.bind fun a => a <;> simp
  · simp [rowGet, rowFind, csvRowOfXml]
  · simp only [rowTruthy, rowFind, csvRowOfXml]
    simp
    cases hj : rq.bind fun a => a <;> simp
  · simp [rowGet, rowFind, csvRowOfXml]
  · simp only [rowTruthy, rowFind, csvRowOfXml]
    simp
    cases hj : rs.bind fun a => a <;> simp
  · simp [rowGet, rowFind, csvRowOfXml]

/-- C8 witness. -/
theorem claim8_format_equivalence_witness :
    filterStep searchSubstr sampleArgsJson sampleXmlRow =
      filterStep searchSubstr sampleArgsJson (csvRowOfXml 0 sampleItem) ∧
    decodedRequestOpt sampleXmlRow = decodedRequestOpt (csvRowOfXml 0 sampleItem) ∧
    decodedResponseOpt sampleXmlRow = decodedResponseOpt (csvRowOfXml 0 sampleItem) :=
  claim8_format_equivalence searchSubstr sampleArgsJson 0 sampleItem sampleXmlRow
    (by decide)

/-- C9: for a record that passes the status and response filters, in
default text mode and in JSON mode (`response_only = false`) an absent
or empty raw `Request` field makes the loop skip the record silently --
no output and no accumulated entry -- while in response-only mode the
record is still processed and still prints its decoded response (when
truthy) followed by the separator line, regardless of its `Request`
field. -/
theorem claim9_request_gate (research : String → String → Option Bool) (a : Args)
    (row : Row) (resp? : Option String)
    (hfs : filterStep research a row = .ok (some resp?)) :
    (a.response_only = false → rowTruthy row "Request" = false →
      processRow research a row = .ok ([], none)) ∧
    (a.response_only = true →
      processRow research a row = .ok (respOnlyEvents resp?, none)) := by
  constructor
  · intro hro hreq
    unfold processRow
    rw [hfs, hro, hreq]
    rfl
  · intro hro
    unfold processRow
    rw [hfs, hro]
    rfl

/-- C9 witness: the same request-less record prints its response and
separator in response-only mode, and is skipped silently in JSON mode. -/
theorem claim9_request_gate_witness :
    processRow searchSubstr sampleArgsRespOnly sampleRowNoRequest =
      .ok (respOnlyEvents (some "Hello"), none) ∧
    processRow searchSubstr sampleArgsJson sampleRowNoRequest = .ok ([], none) :=
  ⟨(claim9_request_gate searchSubstr sampleArgsRespOnly sampleRowNoRequest
      (some "Hello") (by decide)).2 rfl,
   (claim9_request_gate searchSubstr sampleArgsJson sampleRowNoRequest
      (some "Hello") (by decide)).1 rfl (by decide)⟩

/-- C10: the XML loader requires all ten metadata child elements of
every item; when one is missing anywhere in the file, `item.find(tag)`
is `None`, reading `.text` raises `AttributeError`, the load aborts,
and the run exits with code 1, an error on standard error and zero
standard output; whereas when the ten metadata elements are present the
item loads, an absent `request` or `response` element simply yielding a
`None` field value (`Option.join` of the absent element). -/
theorem claim10_xml_metadata_required (research : String → String → Option Bool) (a : Args)
    (items : List XmlItem) (it : XmlItem) (i : Nat) :
    (it ∈ items →
      (it.time = none ∨ it.method = none ∨ it.protocol = none ∨ it.host = none ∨
        it.port = none ∨ it.url = none ∨ it.status = none ∨
        it.responselength = none ∨ it.mimetype = none ∨ it.comment = none) →
      decode_burp_log research a (loadXml items) =
        ⟨[], some ("Error parsing file: " ++ "'NoneType' object has no attribute 'text'"),
          1⟩) ∧
    (∀ t me pr ho po u st rl mi co,
      it.time = some t → it.method = some me → it.protocol = some pr →
      it.host = some ho → it.port = some po → it.url = some u →
      it.status = some st → it.responselength = some rl →
      it.mimetype = some mi → it.comment = some co →
      xmlItemToRow i it =
        some [("ID", some (toString i)), ("Time", t), ("Tool", some "Burp Suite"),
              ("Method", me), ("Protocol", pr), ("Host", ho), ("Port", po),
              ("URL", u), ("Status code", st), ("Length", rl), ("MIME type", mi),
              ("Comment", co), ("Request", it.request.join),
              ("Response", it.response.join)]) := by
  constructor
  · intro hmem hmiss
    have hnone : ∀ k, xmlItemToRow k it = none := fun k => xmlItemToRow_missing k it hmiss
    unfold loadXml
    rw [parseXmlItems_none it hnone 0 items hmem]
    rfl
  · intro t me pr ho po u st rl mi co h1 h2 h3 h4 h5 h6 h7 h8 h9 h10
    unfold xmlItemToRow
    rw [h1, h2, h3, h4, h5, h6, h7, h8, h9, h10]

/-- C10 witness: a file whose only item lacks `time` aborts the run;
`sampleItem` (whose optional elements are present here) loads with its
request and response fields carried over. -/
theorem claim10_xml_metadata_required_witness :
    decode_burp_log searchSubstr sampleArgsJson (loadXml [sampleItemNoTime]) =
      ⟨[], some ("Error parsing file: " ++ "'NoneType' object has no attribute 'text'"),
        1⟩ ∧
    xmlItemToRow 0 sampleItem =
      some [("ID", some "0"), ("Time", some "T"), ("Tool", some "Burp Suite"),
            ("Method", some "GET"), ("Protocol", some "http"), ("Host", some "h"),
            ("Port", some "80"), ("URL", some "/u"), ("Status code", some "200"),
            ("Length", some "5"), ("MIME type", some "text"), ("Comment", none),
            ("Request", sampleItem.request.join), ("Response", sampleItem.response.join)] :=
  ⟨(claim10_xml_metadata_required searchSubstr sampleArgsJson [sampleItemNoTime]
      sampleItemNoTime 0).1 (by simp) (by simp [sampleItemNoTime]),
   by
    have h := (claim10_xml_metadata_required searchSubstr sampleArgsJson []
      sampleItem 0).2 (some "T") (some "GET") (some "http") (some "h") (some "80")
      (some "/u") (some "200") (some "5") (some "text") none
      rfl rfl rfl rfl rfl rfl rfl rfl rfl rfl
    simpa using h⟩
